import Mathlib

/-!
Shallow embedding of the flock simulator core (src/flock/boid.py,
src/flock/flock.py, src/flock/simulation.py).  Python floats are modelled
as real numbers; in-place mutation of one boid becomes a function
returning the updated boid; fallible Python operations (KeyError from
`Simulation.get_flock`, ValueError from `min` on an empty sequence,
ZeroDivisionError from dividing by `len` of an empty list, or from the
`vx / speed` division in `Flock.limit_speed` when speed is zero) are
modelled with `Except`.
-/

namespace FlockSim

noncomputable section

/-- Python exceptions that the simulator can raise. -/
inductive Err where
  | keyError (fid : String) : Err
  | valueError : Err
  | zeroDivision : Err
deriving DecidableEq

/-- The message text attached to a raised error, as produced by the Python
code (`Simulation.get_flock` formats the missing id into its message). -/
def err_message : Err → String
  | Err.keyError fid => "No flock exists with id \"" ++ fid ++ "\"."
  | Err.valueError => "min() arg is an empty sequence"
  | Err.zeroDivision => "division by zero"

/-- Euclidean distance between two points, as computed by math.dist. -/
def mdist (p q : ℝ × ℝ) : ℝ := Real.sqrt ((p.1 - q.1) ^ 2 + (p.2 - q.2) ^ 2)

/-- Euclidean norm of a 2-vector, as computed by math.hypot. -/
def hypot (x y : ℝ) : ℝ := Real.sqrt (x ^ 2 + y ^ 2)

/-- One boid: position, velocity and the trail of previous positions
(`pos_history` in src/flock/boid.py). -/
structure Boid where
  x : ℝ
  y : ℝ
  vx : ℝ
  vy : ℝ
  pos_history : List (ℝ × ℝ)

/-- One flock: the behaviour parameters and the list of boids
(src/flock/flock.py, `Flock.__init__`).  Fields used only for drawing
(color, tracer shade, tracer enabled) carry no simulation content and are
omitted; `tracer_len` is kept because `Boid.update_position` reads it. -/
structure Flock where
  id : Option String
  affinity : List (String × ℝ)
  alignment : ℝ
  separation : ℝ
  cohesion : ℝ
  min_separation : ℝ
  max_speed : ℝ
  boundary_force : ℝ
  sight_range : ℝ
  tracer_len : ℕ
  boids : List Boid

/-- The world: window dimensions and the list of flocks
(src/flock/simulation.py, `Simulation.__init__`). -/
structure Simulation where
  width : ℝ
  height : ℝ
  flocks : List Flock

/-- Boid.in_range from src/flock/boid.py: the other boid is visible when
its distance is at most the owning flock's sight_range. -/
def in_range (f : Flock) (b other : Boid) : Prop :=
  mdist (b.x, b.y) (other.x, other.y) ≤ f.sight_range

instance (f : Flock) (b other : Boid) : Decidable (in_range f b other) :=
  Real.decidableLE _ _

/-- The boids a rule loop visits besides the boid being updated: models the
Python pattern `for other in self.boids` guarded by the identity test
`boid is not other` (or `other != boid`, identical since Boid does not
override equality), with `i` the position of the updated boid in the list. -/
def others (i : ℕ) (l : List Boid) : List Boid :=
  l.eraseIdx i

/-- Flock.rule_alignment: accumulate the velocities of the visible other
boids (the code never divides by the neighbor count), then add
`(acc - v) * alignment` to the velocity. -/
def rule_alignment (f : Flock) (i : ℕ) (b : Boid) : Boid :=
  let acc := (others i f.boids).foldl
    (fun (a : ℝ × ℝ) o => if in_range f b o then (a.1 + o.vx, a.2 + o.vy) else a)
    (0, 0)
  { b with vx := b.vx + (acc.1 - b.vx) * f.alignment,
           vy := b.vy + (acc.2 - b.vy) * f.alignment }

/-- Flock.rule_cohesion: average the positions of the visible other boids;
with zero neighbors the rule returns the boid unchanged. -/
def rule_cohesion (f : Flock) (i : ℕ) (b : Boid) : Boid :=
  let acc := (others i f.boids).foldl
    (fun (a : ℝ × ℝ × ℕ) o =>
      if in_range f b o then (a.1 + o.x, a.2.1 + o.y, a.2.2 + 1) else a)
    (0, 0, 0)
  if acc.2.2 = 0 then b
  else
    { b with vx := b.vx + (acc.1 / (acc.2.2 : ℝ) - b.x) * f.cohesion,
             vy := b.vy + (acc.2.1 / (acc.2.2 : ℝ) - b.y) * f.cohesion }

/-- Flock.rule_separation: sum `position - other.position` over every other
boid strictly closer than min_separation (no sight_range test), then add
the sum scaled by the separation weight. -/
def rule_separation (f : Flock) (i : ℕ) (b : Boid) : Boid :=
  let acc := (others i f.boids).foldl
    (fun (a : ℝ × ℝ) o =>
      if mdist (b.x, b.y) (o.x, o.y) < f.min_separation
      then (a.1 + (b.x - o.x), a.2 + (b.y - o.y)) else a)
    (0, 0)
  { b with vx := b.vx + acc.1 * f.separation,
           vy := b.vy + acc.2 * f.separation }

/-- Python `min(flock.boids, key=distance to b)`: the first boid attaining
the minimal distance, or failure (`none`) on an empty list. -/
def closest_boid (b : Boid) : List Boid → Option Boid
  | [] => none
  | o :: rest =>
    some (rest.foldl
      (fun best other =>
        if mdist (b.x, b.y) (other.x, other.y) < mdist (b.x, b.y) (best.x, best.y)
        then other else best)
      o)

/-- Simulation.get_flock: linear scan for a flock whose id is not None and
equals the argument; raises KeyError naming the id when none matches. -/
def get_flock (s : Simulation) (fid : String) : Except Err Flock :=
  match s.flocks.find? (fun fl => fl.id == some fid) with
  | some fl => Except.ok fl
  | none => Except.error (Err.keyError fid)

/-- One iteration of the loop in Flock.rule_affinity: resolve the target
flock, take its closest boid (ValueError when the target flock is empty),
and steer toward or away from it when it is in sight range. -/
def affinity_step (s : Simulation) (f : Flock) (b : Boid) (entry : String × ℝ) :
    Except Err Boid := do
  let fl ← get_flock s entry.1
  match closest_boid b fl.boids with
  | none => Except.error Err.valueError
  | some closest =>
    if in_range f b closest then
      pure { b with vx := b.vx + (closest.x - b.x) * entry.2,
                    vy := b.vy + (closest.y - b.y) * entry.2 }
    else
      pure b

/-- Flock.rule_affinity: run `affinity_step` over the affinity entries in
declaration order. -/
def rule_affinity (s : Simulation) (f : Flock) (b : Boid) : Except Err Boid :=
  f.affinity.foldlM (affinity_step s f) b

/-- Flock.limit_speed: when the speed exceeds max_speed, rescale the
velocity to max_speed preserving direction.  The Python division
`boid.vx / speed` raises ZeroDivisionError when the branch is taken with
speed = 0 (possible only for max_speed < 0). -/
def limit_speed (f : Flock) (b : Boid) : Except Err Boid :=
  let speed := hypot b.vx b.vy
  if speed > f.max_speed then
    if speed = 0 then Except.error Err.zeroDivision
    else Except.ok
      { b with vx := b.vx / speed * f.max_speed, vy := b.vy / speed * f.max_speed }
  else Except.ok b

/-- The module-level helper from src/flock/flock.py: rescale a vector to
the given magnitude, returning the zero vector when the input has zero
magnitude. -/
def set_magnitude (v : ℝ × ℝ) (magnitude : ℝ) : ℝ × ℝ :=
  let current_magnitude := Real.sqrt (v.1 ^ 2 + v.2 ^ 2)
  if current_magnitude = 0 then (0, 0)
  else (v.1 * (magnitude / current_magnitude), v.2 * (magnitude / current_magnitude))

/-- Simulation.absolute_coords: shift a center-relative point so that the
window's top-left corner becomes the origin. -/
def absolute_coords (s : Simulation) (p : ℝ × ℝ) : ℝ × ℝ :=
  (p.1 + s.width / 2, p.2 + s.height / 2)

/-- The per-axis impulse part of Flock.keep_in_bounds: the velocity after
adding or subtracting boundary_force on each axis whose absolute coordinate
is out of the window. -/
def bounds_velocity (s : Simulation) (f : Flock) (b : Boid) : ℝ × ℝ :=
  let p := absolute_coords s (b.x, b.y)
  let vx := if p.1 < 0 then b.vx + f.boundary_force
            else if p.1 > s.width then b.vx - f.boundary_force else b.vx
  let vy := if p.2 < 0 then b.vy + f.boundary_force
            else if p.2 > s.height then b.vy - f.boundary_force else b.vy
  (vx, vy)

/-- Flock.keep_in_bounds: apply the per-axis impulse, then if the new speed
exceeds the speed before this step, rescale the velocity back to the
previous magnitude while keeping the corrected direction. -/
def keep_in_bounds (s : Simulation) (f : Flock) (b : Boid) : Boid :=
  let magnitude := hypot b.vx b.vy
  let v := bounds_velocity s f b
  let new_magnitude := hypot v.1 v.2
  if new_magnitude > magnitude then
    let w := set_magnitude v magnitude
    { b with vx := w.1, vy := w.2 }
  else
    { b with vx := v.1, vy := v.2 }

/-- Boid.update_position: append the current position to the trail, pop the
front entry when the trail exceeds the owning flock's tracer_len, then
advance the position by the velocity. -/
def update_position (f : Flock) (b : Boid) : Boid :=
  let h := b.pos_history ++ [(b.x, b.y)]
  let h2 := if h.length > f.tracer_len then h.tail else h
  { x := b.x + b.vx, y := b.y + b.vy, vx := b.vx, vy := b.vy, pos_history := h2 }

/-- Flock.update_boid: the four rules in order, then the speed clamp, the
boundary step, and the position integration, for the boid at index `i`
whose current state is `b`. -/
def update_boid (s : Simulation) (f : Flock) (i : ℕ) (b : Boid) : Except Err Boid := do
  let b1 := rule_alignment f i b
  let b2 := rule_cohesion f i b1
  let b3 := rule_separation f i b2
  let b4 ← rule_affinity s f b3
  let b5 ← limit_speed f b4
  let b6 := keep_in_bounds s f b5
  pure (update_position f b6)

/-- Run Flock.update_boid on the boid at position (fi, bi) of the world and
store the result back, leaving everything else as it was.  Out-of-range
indices leave the world unchanged (the tick loop never produces them). -/
def update_boid_at (s : Simulation) (fi bi : ℕ) : Except Err Simulation :=
  match s.flocks.get? fi with
  | none => Except.ok s
  | some f =>
    match f.boids.get? bi with
    | none => Except.ok s
    | some b => do
      let b2 ← update_boid s f bi b
      Except.ok { s with flocks := s.flocks.set fi { f with boids := f.boids.set bi b2 } }

/-- The inner loop of one tick for the flock at index fi: update each of
its boids in order against the live, already-mutated world. -/
def tick_flock (s : Simulation) (fi : ℕ) : Except Err Simulation :=
  match s.flocks.get? fi with
  | none => Except.ok s
  | some f => (List.range f.boids.length).foldlM (fun t bi => update_boid_at t fi bi) s

/-- The update pass of one tick of Simulation.run: every flock in order,
every boid in order. -/
def tick (s : Simulation) : Except Err Simulation :=
  (List.range s.flocks.length).foldlM tick_flock s

/-- Iterate `tick` the given number of times. -/
def tickN : ℕ → Simulation → Except Err Simulation
  | 0, s => Except.ok s
  | n + 1, s => do tickN n (← tick s)

/-- Flock.get_center: the mean position of the flock's boids; dividing by
`len(self.boids)` raises ZeroDivisionError on an empty flock. -/
def get_center (f : Flock) : Except Err (ℝ × ℝ) :=
  if f.boids.length = 0 then Except.error Err.zeroDivision
  else
    Except.ok ((f.boids.map Boid.x).sum / (f.boids.length : ℝ),
               (f.boids.map Boid.y).sum / (f.boids.length : ℝ))

/-- Python random.uniform(a, b) expressed on the underlying draw
`u ∈ [0, 1]`: it returns `a + (b - a) * u`. -/
def uniform (a b u : ℝ) : ℝ := a + (b - a) * u

/-- Boid.create_random on explicit draws `u1 u2 u3 u4 ∈ [0, 1]` for the two
position and two velocity components; the trail starts empty. -/
def create_random (min_position max_position : ℝ × ℝ)
    (min_velocity max_velocity : ℝ) (u1 u2 u3 u4 : ℝ) : Boid :=
  { x := uniform min_position.1 max_position.1 u1,
    y := uniform min_position.2 max_position.2 u2,
    vx := uniform min_velocity max_velocity u3,
    vy := uniform min_velocity max_velocity u4,
    pos_history := [] }

/-- A boid as built in Flock.__init__: `create_random` with min_position
(0, 0), max_position (width / 2, height / 2) and velocity range [-1, 1]. -/
def flock_init_boid (width height : ℝ) (u1 u2 u3 u4 : ℝ) : Boid :=
  create_random (0, 0) (width / 2, height / 2) (-1) 1 u1 u2 u3 u4

/-- The separation rule as the specification states it: sum
`position - other.position` over the other boids strictly within
min_separation, scale by the separation weight, add to the velocity. -/
def rule_separation_spec (f : Flock) (i : ℕ) (b : Boid) : Boid :=
  let near := (others i f.boids).filter
    (fun o => decide (mdist (b.x, b.y) (o.x, o.y) < f.min_separation))
  { b with vx := b.vx + (near.map (fun o => b.x - o.x)).sum * f.separation,
           vy := b.vy + (near.map (fun o => b.y - o.y)).sum * f.separation }

/-- The trail-length invariant over a whole world: every boid's trail is
within its flock's tracer_len. -/
def trail_inv (s : Simulation) : Prop :=
  ∀ fl ∈ s.flocks, ∀ b ∈ fl.boids, b.pos_history.length ≤ fl.tracer_len

/-- The boid stored at flock index fi, boid index bi of the world. -/
def boid_at (s : Simulation) (fi bi : ℕ) : Option Boid :=
  (s.flocks.get? fi).bind fun fl => fl.boids.get? bi

/-! ### General lemmas about the embedded operations -/

lemma ok_bind {α β : Type} (a : α) (g : α → Except Err β) :
    (Except.ok a >>= g) = g a := rfl

lemma error_bind {α β : Type} (e : Err) (g : α → Except Err β) :
    ((Except.error e : Except Err α) >>= g) = Except.error e := rfl

lemma rule_affinity_nil (s : Simulation) (f : Flock) (b : Boid) (h : f.affinity = []) :
    rule_affinity s f b = Except.ok b := by
  unfold rule_affinity
  rw [h]
  rfl

lemma rule_alignment_zero (f : Flock) (i : ℕ) (b : Boid) (h : f.alignment = 0) :
    rule_alignment f i b = b := by
  simp [rule_alignment, h]

lemma rule_cohesion_zero (f : Flock) (i : ℕ) (b : Boid) (h : f.cohesion = 0) :
    rule_cohesion f i b = b := by
  simp only [rule_cohesion, h, mul_zero, add_zero]
  split <;> rfl

lemma update_boid_eq (s : Simulation) (f : Flock) (i : ℕ) (b b4 b5 : Boid)
    (h : rule_affinity s f (rule_separation f i (rule_cohesion f i (rule_alignment f i b))) =
      Except.ok b4)
    (h2 : limit_speed f b4 = Except.ok b5) :
    update_boid s f i b =
      Except.ok (update_position f (keep_in_bounds s f b5)) := by
  show rule_affinity s f (rule_separation f i (rule_cohesion f i (rule_alignment f i b))) >>=
      (fun b4 => limit_speed f b4 >>= fun b5 =>
        pure (update_position f (keep_in_bounds s f b5))) = _
  rw [h, ok_bind, h2, ok_bind]
  rfl

lemma update_boid_error (s : Simulation) (f : Flock) (i : ℕ) (b : Boid) (e : Err)
    (h : rule_affinity s f (rule_separation f i (rule_cohesion f i (rule_alignment f i b))) =
      Except.error e) :
    update_boid s f i b = Except.error e := by
  show rule_affinity s f (rule_separation f i (rule_cohesion f i (rule_alignment f i b))) >>=
      (fun b4 => limit_speed f b4 >>= fun b5 =>
        pure (update_position f (keep_in_bounds s f b5))) = _
  rw [h, error_bind]

lemma update_boid_error_limit (s : Simulation) (f : Flock) (i : ℕ) (b b4 : Boid) (e : Err)
    (h : rule_affinity s f (rule_separation f i (rule_cohesion f i (rule_alignment f i b))) =
      Except.ok b4)
    (h2 : limit_speed f b4 = Except.error e) :
    update_boid s f i b = Except.error e := by
  show rule_affinity s f (rule_separation f i (rule_cohesion f i (rule_alignment f i b))) >>=
      (fun b4 => limit_speed f b4 >>= fun b5 =>
        pure (update_position f (keep_in_bounds s f b5))) = _
  rw [h, ok_bind, h2, error_bind]

lemma update_boid_at_eq (s : Simulation) (fi bi : ℕ) (f : Flock) (b b2 : Boid)
    (hf : s.flocks.get? fi = some f) (hb : f.boids.get? bi = some b)
    (hu : update_boid s f bi b = Except.ok b2) :
    update_boid_at s fi bi =
      Except.ok { s with flocks := s.flocks.set fi { f with boids := f.boids.set bi b2 } } := by
  unfold update_boid_at
  split
  · next heq => rw [hf] at heq; exact absurd heq (by simp)
  · next f2 heq =>
    rw [hf] at heq
    injection heq with heq2
    subst heq2
    split
    · next heq3 => rw [hb] at heq3; exact absurd heq3 (by simp)
    · next b3 heq3 =>
      rw [hb] at heq3
      injection heq3 with heq4
      subst heq4
      show update_boid s f bi b >>= _ = _
      rw [hu, ok_bind]

/-! ### Concrete square roots used in evaluations -/

lemma sqrt_nine : Real.sqrt 9 = 3 := by
  rw [show (9 : ℝ) = 3 ^ 2 by norm_num, Real.sqrt_sq (by norm_num)]

lemma sqrt_thirty_six : Real.sqrt 36 = 6 := by
  rw [show (36 : ℝ) = 6 ^ 2 by norm_num, Real.sqrt_sq (by norm_num)]

/-! ### The two-boid scenario of the deterministic composition example -/

/-- The boid that starts at the origin in the two-agent example. -/
def c1b0 : Boid := ⟨0, 0, 0, 0, []⟩

/-- The boid that starts at (3, 0) in the two-agent example. -/
def c1b1 : Boid := ⟨3, 0, 0, 0, []⟩

/-- The example flock: alignment 0, cohesion 0, separation 1,
min_separation 10, max_speed 100. -/
def c1flock : Flock :=
  { id := none, affinity := [], alignment := 0, separation := 1, cohesion := 0,
    min_separation := 10, max_speed := 100, boundary_force := 5, sight_range := 50,
    tracer_len := 10, boids := [c1b0, c1b1] }

/-- The example world: an 800 by 600 window holding the example flock. -/
def c1sim : Simulation := ⟨800, 600, [c1flock]⟩

/-- The first boid after its update: separation pushed it to (-3, 0). -/
def c1b0' : Boid := ⟨-3, 0, -3, 0, [(0, 0)]⟩

/-- The second boid after its update against the live state: the first boid
already sits at (-3, 0), distance 6 < 10, so separation fires with delta
(3 - (-3)) * 1 = 6 and the boid ends at (9, 0). -/
def c1b1' : Boid := ⟨9, 0, 6, 0, [(3, 0)]⟩

/-- The example world after the first boid's update. -/
def c1flock_mid : Flock := { c1flock with boids := [c1b0', c1b1] }

/-- The example world after the first boid's update. -/
def c1sim_mid : Simulation := ⟨800, 600, [c1flock_mid]⟩

/-- The example flock after the full tick. -/
def c1flock_end : Flock := { c1flock with boids := [c1b0', c1b1'] }

/-- The example world after the full tick. -/
def c1sim_end : Simulation := ⟨800, 600, [c1flock_end]⟩

lemma c1_sep0 : rule_separation c1flock 0 c1b0 = (⟨0, 0, -3, 0, []⟩ : Boid) := by
  norm_num [rule_separation, others, List.eraseIdx, c1flock, c1b0, c1b1, mdist, sqrt_nine]

lemma c1_mid_eval : update_boid c1sim c1flock 0 c1b0 = Except.ok c1b0' := by
  have h3 : rule_separation c1flock 0 (rule_cohesion c1flock 0 (rule_alignment c1flock 0 c1b0)) =
      (⟨0, 0, -3, 0, []⟩ : Boid) := by
    rw [rule_alignment_zero _ _ _ rfl, rule_cohesion_zero _ _ _ rfl, c1_sep0]
  have hlim : limit_speed c1flock (⟨0, 0, -3, 0, []⟩ : Boid) =
      Except.ok ⟨0, 0, -3, 0, []⟩ := by
    norm_num [limit_speed, hypot, c1flock, sqrt_nine]
  rw [update_boid_eq c1sim c1flock 0 c1b0 ⟨0, 0, -3, 0, []⟩ ⟨0, 0, -3, 0, []⟩
    (by rw [h3]; exact rule_affinity_nil _ _ _ rfl) hlim]
  norm_num [keep_in_bounds, bounds_velocity, absolute_coords, hypot,
    update_position, c1sim, c1flock, c1b0', sqrt_nine]

lemma c1_sep1 : rule_separation c1flock_mid 1 c1b1 = (⟨3, 0, 6, 0, []⟩ : Boid) := by
  norm_num [rule_separation, others, List.eraseIdx, c1flock_mid, c1flock, c1b0', c1b1, mdist,
    sqrt_thirty_six]

lemma c1_end_eval : update_boid c1sim_mid c1flock_mid 1 c1b1 = Except.ok c1b1' := by
  have h3 : rule_separation c1flock_mid 1
      (rule_cohesion c1flock_mid 1 (rule_alignment c1flock_mid 1 c1b1)) =
      (⟨3, 0, 6, 0, []⟩ : Boid) := by
    rw [rule_alignment_zero _ _ _ rfl, rule_cohesion_zero _ _ _ rfl, c1_sep1]
  have hlim : limit_speed c1flock_mid (⟨3, 0, 6, 0, []⟩ : Boid) =
      Except.ok ⟨3, 0, 6, 0, []⟩ := by
    norm_num [limit_speed, hypot, c1flock_mid, c1flock, sqrt_thirty_six]
  rw [update_boid_eq c1sim_mid c1flock_mid 1 c1b1 ⟨3, 0, 6, 0, []⟩ ⟨3, 0, 6, 0, []⟩
    (by rw [h3]; exact rule_affinity_nil _ _ _ rfl) hlim]
  norm_num [keep_in_bounds, bounds_velocity, absolute_coords, hypot,
    update_position, c1sim_mid, c1flock_mid, c1flock, c1b1', sqrt_thirty_six]

lemma c1_step1 : update_boid_at c1sim 0 0 = Except.ok c1sim_mid := by
  rw [update_boid_at_eq c1sim 0 0 c1flock c1b0 c1b0' rfl rfl c1_mid_eval]
  rfl

lemma c1_step2 : update_boid_at c1sim_mid 0 1 = Except.ok c1sim_end := by
  rw [update_boid_at_eq c1sim_mid 0 1 c1flock_mid c1b1 c1b1' rfl rfl c1_end_eval]
  rfl

lemma c1_tick : tick c1sim = Except.ok c1sim_end := by
  have h : tick c1sim =
      (update_boid_at c1sim 0 0 >>= fun t =>
        update_boid_at t 0 1 >>= fun t2 => (pure t2 : Except Err Simulation)) >>=
        fun t => (pure t : Except Err Simulation) := rfl
  rw [h, c1_step1, ok_bind, c1_step2, ok_bind]
  rfl

/-! ### Lemmas about speed bounds -/

lemma hypot_nonneg (x y : ℝ) : 0 ≤ hypot x y := Real.sqrt_nonneg _

lemma hypot_smul (c x y : ℝ) : hypot (c * x) (c * y) = |c| * hypot x y := by
  unfold hypot
  rw [show (c * x) ^ 2 + (c * y) ^ 2 = c ^ 2 * (x ^ 2 + y ^ 2) by ring,
    Real.sqrt_mul (sq_nonneg c), Real.sqrt_sq_eq_abs]

lemma limit_speed_ok (f : Flock) (b : Boid) (h : 0 ≤ f.max_speed) :
    ∃ b5, limit_speed f b = Except.ok b5 := by
  simp only [limit_speed]
  by_cases hs : hypot b.vx b.vy > f.max_speed
  · rw [if_pos hs, if_neg (lt_of_le_of_lt h hs).ne']
    exact ⟨_, rfl⟩
  · rw [if_neg hs]
    exact ⟨b, rfl⟩

lemma limit_speed_bound (f : Flock) (b b5 : Boid) (h : 0 ≤ f.max_speed)
    (hok : limit_speed f b = Except.ok b5) :
    hypot b5.vx b5.vy ≤ f.max_speed := by
  simp only [limit_speed] at hok
  by_cases hs : hypot b.vx b.vy > f.max_speed
  · rw [if_pos hs] at hok
    have hpos : 0 < hypot b.vx b.vy := lt_of_le_of_lt h hs
    rw [if_neg hpos.ne'] at hok
    injection hok with h2
    subst h2
    dsimp only
    rw [show b.vx / hypot b.vx b.vy * f.max_speed =
        (f.max_speed / hypot b.vx b.vy) * b.vx by ring,
      show b.vy / hypot b.vx b.vy * f.max_speed =
        (f.max_speed / hypot b.vx b.vy) * b.vy by ring,
      hypot_smul, abs_of_nonneg (div_nonneg h hpos.le), div_mul_cancel₀ _ hpos.ne']
  · rw [if_neg hs] at hok
    injection hok with h2
    subst h2
    exact le_of_not_lt hs

lemma set_magnitude_zero (m : ℝ) : set_magnitude (0, 0) m = (0, 0) := by
  norm_num [set_magnitude, Real.sqrt_zero]

lemma set_magnitude_eq (v : ℝ × ℝ) (m : ℝ) (hv : hypot v.1 v.2 ≠ 0) :
    set_magnitude v m = ((m / hypot v.1 v.2) * v.1, (m / hypot v.1 v.2) * v.2) := by
  have e : Real.sqrt (v.1 ^ 2 + v.2 ^ 2) = hypot v.1 v.2 := rfl
  simp only [set_magnitude, e]
  rw [if_neg hv]
  simp [mul_comm]

lemma set_magnitude_hypot (v : ℝ × ℝ) (m : ℝ) (hm : 0 ≤ m) (hv : hypot v.1 v.2 ≠ 0) :
    hypot (set_magnitude v m).1 (set_magnitude v m).2 = m := by
  rw [set_magnitude_eq v m hv]
  dsimp only
  rw [hypot_smul, abs_of_nonneg (div_nonneg hm (hypot_nonneg _ _)), div_mul_cancel₀ _ hv]

lemma keep_in_bounds_hypot_le (s : Simulation) (f : Flock) (b : Boid) :
    hypot (keep_in_bounds s f b).vx (keep_in_bounds s f b).vy ≤ hypot b.vx b.vy := by
  simp only [keep_in_bounds]
  by_cases hgt : hypot (bounds_velocity s f b).1 (bounds_velocity s f b).2 > hypot b.vx b.vy
  · rw [if_pos hgt]
    dsimp only
    rw [set_magnitude_hypot _ _ (hypot_nonneg _ _)
      (lt_of_le_of_lt (hypot_nonneg _ _) hgt).ne']
  · rw [if_neg hgt]
    dsimp only
    exact le_of_not_lt hgt

lemma update_position_vx (f : Flock) (b : Boid) : (update_position f b).vx = b.vx := rfl

lemma update_position_vy (f : Flock) (b : Boid) : (update_position f b).vy = b.vy := rfl

/-! ### Claim C1 -/

/-- C1: the claim states that in the two-agent separation example, the agent
that started at (3, 0) ends the tick at (6, 0) (and the one at the origin at
(-3, 0)).  This is false for the code: the per-tick pass updates against the
live state, so the second agent sees the first at (-3, 0), receives the
separation delta (6, 0), and ends at (9, 0). -/
theorem C1_counterexample : ¬ ∃ s', tick c1sim = Except.ok s' ∧
    (boid_at s' 0 0).map Boid.x = some (-3) ∧ (boid_at s' 0 1).map Boid.x = some 6 := by
  rintro ⟨s', ht, h0, h1⟩
  rw [c1_tick] at ht
  injection ht with ht2
  subst ht2
  rw [show (boid_at c1sim_end 0 1).map Boid.x = some 9 from rfl] at h1
  injection h1 with h2
  exact absurd h2 (by norm_num)

/-- C1 (amended): in the two-agent flock with alignment 0, cohesion 0,
separation 1, min_separation 10, max_speed 100 inside an 800 by 600 window,
one tick of the world's per-tick pass (updating each agent in order against
the live, already-mutated state) moves the agent that started at (0, 0) to
(-3, 0) and the agent that started at (3, 0) to (9, 0). -/
theorem C1_amended_positions :
    tick c1sim = Except.ok c1sim_end ∧
    (boid_at c1sim_end 0 0).map (fun b => (b.x, b.y)) = some (-3, 0) ∧
    (boid_at c1sim_end 0 1).map (fun b => (b.x, b.y)) = some (9, 0) :=
  ⟨c1_tick, rfl, rfl⟩

/-! ### Claim C2 -/

lemma sqrt_four : Real.sqrt 4 = 2 := by
  rw [show (4 : ℝ) = 2 ^ 2 by norm_num, Real.sqrt_sq (by norm_num)]

/-- The agent whose alignment update is evaluated in the C2 failing input. -/
def c2b : Boid := ⟨0, 0, 0, 0, []⟩

/-- A neighbor at distance 1 with velocity (2, 0). -/
def c2n1 : Boid := ⟨1, 0, 2, 0, []⟩

/-- A neighbor at distance 2 with velocity (4, 0). -/
def c2n2 : Boid := ⟨2, 0, 4, 0, []⟩

/-- A flock with alignment weight 1 and sight_range 100, holding the agent
and its two visible neighbors. -/
def c2flock : Flock :=
  { id := none, affinity := [], alignment := 1, separation := 0, cohesion := 0,
    min_separation := 1, max_speed := 100, boundary_force := 1, sight_range := 100,
    tracer_len := 10, boids := [c2b, c2n1, c2n2] }

/-- C2: the code's alignment rule uses the SUM of the visible neighbors'
velocities, not their arithmetic mean: with two visible neighbors of
velocities (2, 0) and (4, 0), weight 1 and own velocity zero, the rule sets
vx to 0 + (2 + 4 - 0) * 1 = 6, while the claimed mean-velocity rule would
set it to 0 + ((2 + 4) / 2 - 0) * 1 = 3. -/
theorem C2_alignment_sums_not_averages :
    (rule_alignment c2flock 0 c2b).vx = 6 ∧
    (rule_alignment c2flock 0 c2b).vx ≠ 0 + (((2 : ℝ) + 4) / 2 - 0) * 1 := by
  have h : (rule_alignment c2flock 0 c2b).vx = 6 := by
    norm_num [rule_alignment, others, List.eraseIdx, c2flock, c2b, c2n1, c2n2, in_range,
      mdist, Real.sqrt_one, sqrt_four]
  exact ⟨h, by rw [h]; norm_num⟩

/-! ### Claim C3 -/

/-- C3: for every agent of every flock, whenever update_boid completes the
returned agent's speed is at most the flock's max_speed (given
max_speed ≥ 0); the boundary-keeping step after the clamp never raises the
speed above max_speed. -/
theorem C3_speed_bound (s : Simulation) (f : Flock) (i : ℕ) (b b' : Boid)
    (hms : 0 ≤ f.max_speed) (h : update_boid s f i b = Except.ok b') :
    hypot b'.vx b'.vy ≤ f.max_speed := by
  cases haff : rule_affinity s f (rule_separation f i (rule_cohesion f i (rule_alignment f i b))) with
  | error e =>
    rw [update_boid_error s f i b e haff] at h
    exact absurd h (by simp)
  | ok b4 =>
    cases hlim : limit_speed f b4 with
    | error e =>
      rw [update_boid_error_limit s f i b b4 e haff hlim] at h
      exact absurd h (by simp)
    | ok b5 =>
      rw [update_boid_eq s f i b b4 b5 haff hlim] at h
      injection h with h2
      subst h2
      rw [update_position_vx, update_position_vy]
      exact le_trans (keep_in_bounds_hypot_le s f b5)
        (limit_speed_bound f b4 b5 hms hlim)

/-- A single stationary boid used to witness C3. -/
def c3boid : Boid := ⟨0, 0, 0, 0, []⟩

/-- A single-boid flock with nonzero rule weights, used to witness C3. -/
def c3flock : Flock :=
  { id := none, affinity := [], alignment := 2, separation := 3, cohesion := 4,
    min_separation := 10, max_speed := 100, boundary_force := 5, sight_range := 50,
    tracer_len := 10, boids := [c3boid] }

/-- The world holding the C3 witness flock. -/
def c3sim : Simulation := ⟨800, 600, [c3flock]⟩

lemma c3_eval : update_boid c3sim c3flock 0 c3boid = Except.ok ⟨0, 0, 0, 0, [(0, 0)]⟩ := by
  have h1 : rule_alignment c3flock 0 c3boid = c3boid := by
    norm_num [rule_alignment, others, List.eraseIdx, c3flock, c3boid]
  have h2 : rule_cohesion c3flock 0 c3boid = c3boid := by
    norm_num [rule_cohesion, others, List.eraseIdx, c3flock, c3boid]
  have h3 : rule_separation c3flock 0 c3boid = c3boid := by
    norm_num [rule_separation, others, List.eraseIdx, c3flock, c3boid]
  have hlim : limit_speed c3flock c3boid = Except.ok c3boid := by
    norm_num [limit_speed, hypot, c3flock, c3boid, Real.sqrt_zero]
  rw [update_boid_eq c3sim c3flock 0 c3boid c3boid c3boid
    (by rw [h1, h2, h3]; exact rule_affinity_nil _ _ _ rfl) hlim]
  norm_num [keep_in_bounds, bounds_velocity, absolute_coords, hypot,
    update_position, c3sim, c3flock, c3boid, Real.sqrt_zero]

/-- Witness for C3 at a concrete input: the single-boid update completes and
the resulting speed is within max_speed = 100. -/
theorem C3_speed_bound_witness :
    ∃ b', update_boid c3sim c3flock 0 c3boid = Except.ok b' ∧
      hypot b'.vx b'.vy ≤ c3flock.max_speed :=
  ⟨⟨0, 0, 0, 0, [(0, 0)]⟩, c3_eval,
    C3_speed_bound c3sim c3flock 0 c3boid _ (by norm_num [c3flock]) c3_eval⟩

/-! ### Claim C5 -/

/-- C5: the boundary-keeping step never increases speed: the outgoing speed
is at most the incoming speed; when the per-axis corrections alone would
exceed the incoming speed, the step rescales the corrected vector to exactly
the incoming magnitude as a nonnegative multiple of the corrected vector;
and rescaling the zero vector yields the zero vector. -/
theorem C5_boundary_never_accelerates (s : Simulation) (f : Flock) (b : Boid) (m : ℝ) :
    hypot (keep_in_bounds s f b).vx (keep_in_bounds s f b).vy ≤ hypot b.vx b.vy ∧
    (hypot (bounds_velocity s f b).1 (bounds_velocity s f b).2 > hypot b.vx b.vy →
      hypot (keep_in_bounds s f b).vx (keep_in_bounds s f b).vy = hypot b.vx b.vy ∧
      ∃ c : ℝ, 0 ≤ c ∧ (keep_in_bounds s f b).vx = c * (bounds_velocity s f b).1 ∧
        (keep_in_bounds s f b).vy = c * (bounds_velocity s f b).2) ∧
    set_magnitude (0, 0) m = (0, 0) := by
  refine ⟨keep_in_bounds_hypot_le s f b, ?_, set_magnitude_zero m⟩
  intro hgt
  have hne : hypot (bounds_velocity s f b).1 (bounds_velocity s f b).2 ≠ 0 :=
    (lt_of_le_of_lt (hypot_nonneg _ _) hgt).ne'
  have hkib : keep_in_bounds s f b =
      { b with vx := (set_magnitude (bounds_velocity s f b) (hypot b.vx b.vy)).1,
               vy := (set_magnitude (bounds_velocity s f b) (hypot b.vx b.vy)).2 } := by
    simp only [keep_in_bounds]
    rw [if_pos hgt]
  refine ⟨?_, hypot b.vx b.vy / hypot (bounds_velocity s f b).1 (bounds_velocity s f b).2,
    div_nonneg (hypot_nonneg _ _) (hypot_nonneg _ _), ?_, ?_⟩
  · rw [hkib]
    exact set_magnitude_hypot _ _ (hypot_nonneg _ _) hne
  · rw [hkib]
    simp [set_magnitude_eq _ _ hne]
  · rw [hkib]
    simp [set_magnitude_eq _ _ hne]

/-- A boid beyond the right window edge with zero velocity, witnessing C5. -/
def c5boid : Boid := ⟨60, 0, 0, 0, []⟩

/-- A flock with boundary_force 3 holding the C5 witness boid. -/
def c5flock : Flock :=
  { id := none, affinity := [], alignment := 1, separation := 1, cohesion := 1,
    min_separation := 10, max_speed := 100, boundary_force := 3, sight_range := 50,
    tracer_len := 10, boids := [c5boid] }

/-- A 100 by 100 window holding the C5 witness flock. -/
def c5sim : Simulation := ⟨100, 100, [c5flock]⟩

/-- Witness for C5 at a concrete input where the rescale fires: the boid
sits past the right edge with zero velocity, the impulse makes the corrected
speed 3 > 0, and the step rescales back to the incoming magnitude 0. -/
theorem C5_witness :
    hypot (keep_in_bounds c5sim c5flock c5boid).vx (keep_in_bounds c5sim c5flock c5boid).vy =
      hypot c5boid.vx c5boid.vy ∧
    hypot (keep_in_bounds c5sim c5flock c5boid).vx (keep_in_bounds c5sim c5flock c5boid).vy ≤
      hypot c5boid.vx c5boid.vy := by
  have h := C5_boundary_never_accelerates c5sim c5flock c5boid 7
  have hant : hypot (bounds_velocity c5sim c5flock c5boid).1
      (bounds_velocity c5sim c5flock c5boid).2 > hypot c5boid.vx c5boid.vy := by
    norm_num [bounds_velocity, absolute_coords, hypot, c5sim, c5flock, c5boid,
      Real.sqrt_zero, sqrt_nine]
  exact ⟨(h.2.1 hant).1, h.1⟩

/-! ### Claim C8 -/

lemma sep_fold (f : Flock) (b : Boid) (l : List Boid) : ∀ a : ℝ × ℝ,
    l.foldl (fun (a : ℝ × ℝ) o =>
      if mdist (b.x, b.y) (o.x, o.y) < f.min_separation
      then (a.1 + (b.x - o.x), a.2 + (b.y - o.y)) else a) a =
    (a.1 + ((l.filter fun o => decide (mdist (b.x, b.y) (o.x, o.y) < f.min_separation)).map
        (fun o => b.x - o.x)).sum,
     a.2 + ((l.filter fun o => decide (mdist (b.x, b.y) (o.x, o.y) < f.min_separation)).map
        (fun o => b.y - o.y)).sum) := by
  induction l with
  | nil => intro a; simp
  | cons o l ih =>
    intro a
    rw [List.foldl_cons]
    by_cases hp : mdist (b.x, b.y) (o.x, o.y) < f.min_separation
    · rw [if_pos hp, ih]
      rw [show List.filter (fun o => decide (mdist (b.x, b.y) (o.x, o.y) < f.min_separation))
            (o :: l) =
          o :: List.filter (fun o => decide (mdist (b.x, b.y) (o.x, o.y) < f.min_separation)) l
        from by simp [List.filter_cons, hp]]
      rw [List.map_cons, List.sum_cons, List.map_cons, List.sum_cons]
      simp only [Prod.mk.injEq]
      constructor <;> ring
    · rw [if_neg hp, ih]
      rw [show List.filter (fun o => decide (mdist (b.x, b.y) (o.x, o.y) < f.min_separation))
            (o :: l) =
          List.filter (fun o => decide (mdist (b.x, b.y) (o.x, o.y) < f.min_separation)) l
        from by simp [List.filter_cons, hp]]

/-- C8: the separation rule adds to the velocity the sum, over every other
same-flock agent strictly closer than min_separation (with no sight_range
filtering), of (position - neighbor.position) scaled by the separation
weight; agents at distance exactly min_separation or farther are filtered
out of that sum and contribute nothing. -/
theorem C8_separation_rule (f : Flock) (i : ℕ) (b : Boid) :
    rule_separation f i b = rule_separation_spec f i b := by
  simp only [rule_separation, rule_separation_spec]
  rw [sep_fold f b (others i f.boids) (0, 0)]
  norm_num

/-! ### Claim C7 -/

lemma foldlM_cons_eq {α : Type} (g : Boid → α → Except Err Boid) (b : Boid) (e : α)
    (l : List α) :
    List.foldlM g b (e :: l) = g b e >>= fun b2 => List.foldlM g b2 l := rfl

lemma foldlM_append_eq {α : Type} (g : Boid → α → Except Err Boid) :
    ∀ (l1 l2 : List α) (b : Boid),
      List.foldlM g b (l1 ++ l2) =
        List.foldlM g b l1 >>= fun b2 => List.foldlM g b2 l2 := by
  intro l1
  induction l1 with
  | nil => intro l2 b; rfl
  | cons e l ih =>
    intro l2 b
    rw [List.cons_append, foldlM_cons_eq, foldlM_cons_eq]
    cases hs : g b e with
    | error er => simp only [hs, error_bind]
    | ok b2 =>
      simp only [hs, ok_bind]
      exact ih l2 b2

/-- C7: whenever the world holds a flock whose id equals the argument,
get_flock succeeds and returns a member flock carrying that id (and every
successful lookup returns such a flock); when no flock carries the id, it
fails with a KeyError whose message names the missing id, and an affinity
entry naming such an id — at any position whose earlier entries evaluate
without error — makes the affinity rule fail with that same error. -/
theorem C7_get_flock_lookup (s : Simulation) (fid : String) :
    (∀ fl, get_flock s fid = Except.ok fl → fl ∈ s.flocks ∧ fl.id = some fid) ∧
    ((∃ fl ∈ s.flocks, fl.id = some fid) →
      ∃ fl, get_flock s fid = Except.ok fl ∧ fl ∈ s.flocks ∧ fl.id = some fid) ∧
    ((∀ fl ∈ s.flocks, fl.id ≠ some fid) →
      get_flock s fid = Except.error (Err.keyError fid) ∧
      err_message (Err.keyError fid) = "No flock exists with id \"" ++ fid ++ "\"." ∧
      ∀ (f : Flock) (b b1 : Boid) (w : ℝ) (pre rest : List (String × ℝ)),
        f.affinity = pre ++ (fid, w) :: rest →
        List.foldlM (affinity_step s f) b pre = Except.ok b1 →
        rule_affinity s f b = Except.error (Err.keyError fid)) := by
  refine ⟨?_, ?_, ?_⟩
  · intro fl h
    unfold get_flock at h
    cases hf : s.flocks.find? (fun fl => fl.id == some fid) with
    | none => rw [hf] at h; exact absurd h (by simp)
    | some fl0 =>
      rw [hf] at h
      injection h with h2
      subst h2
      refine ⟨List.mem_of_find?_eq_some hf, ?_⟩
      have hp := List.find?_some hf
      simpa using hp
  · rintro ⟨fl0, hmem, hid⟩
    cases hf : s.flocks.find? (fun fl => fl.id == some fid) with
    | none =>
      exfalso
      exact List.find?_eq_none.mp hf fl0 hmem (by simp [hid])
    | some fl1 =>
      refine ⟨fl1, ?_, List.mem_of_find?_eq_some hf, by simpa using List.find?_some hf⟩
      unfold get_flock
      rw [hf]
  · intro hnone
    have hf : s.flocks.find? (fun fl => fl.id == some fid) = none := by
      apply List.find?_eq_none.mpr
      intro fl hmem
      simpa using hnone fl hmem
    have hg : get_flock s fid = Except.error (Err.keyError fid) := by
      unfold get_flock
      rw [hf]
    refine ⟨hg, rfl, ?_⟩
    intro f b b1 w pre rest haff hpre
    unfold rule_affinity
    rw [haff, foldlM_append_eq, hpre, ok_bind, foldlM_cons_eq]
    have hstep : affinity_step s f b1 (fid, w) = Except.error (Err.keyError fid) := by
      show get_flock s (fid, w).1 >>= _ = _
      rw [show ((fid, w) : String × ℝ).1 = fid from rfl, hg, error_bind]
    rw [hstep, error_bind]

/-- The lone boid of the flock that declares the dangling affinity id. -/
def c7boid : Boid := ⟨0, 0, 0, 0, []⟩

/-- A flock whose affinity names the id ghost that no flock carries. -/
def c7flock : Flock :=
  { id := some "a", affinity := [("ghost", 1)], alignment := 0, separation := 0,
    cohesion := 0, min_separation := 10, max_speed := 100, boundary_force := 5,
    sight_range := 50, tracer_len := 10, boids := [c7boid] }

/-- A world holding only the flock with the dangling affinity entry. -/
def c7sim : Simulation := ⟨800, 600, [c7flock]⟩

/-- Witness for C7 at a concrete input: looking up the existing id a
succeeds with a member flock carrying that id, looking up ghost fails with
the KeyError naming ghost, and evaluating the affinity rule surfaces it. -/
theorem C7_witness :
    (∃ fl, get_flock c7sim "a" = Except.ok fl ∧ fl ∈ c7sim.flocks ∧ fl.id = some "a") ∧
    get_flock c7sim "ghost" = Except.error (Err.keyError "ghost") ∧
    rule_affinity c7sim c7flock c7boid = Except.error (Err.keyError "ghost") ∧
    err_message (Err.keyError "ghost") = "No flock exists with id \"ghost\"." := by
  have ha := (C7_get_flock_lookup c7sim "a").2.1 ⟨c7flock, by simp [c7sim], rfl⟩
  have h := C7_get_flock_lookup c7sim "ghost"
  have hn : ∀ fl ∈ c7sim.flocks, fl.id ≠ some "ghost" := by
    intro fl hm
    have h3 : fl = c7flock := by simpa [c7sim] using hm
    subst h3
    simp [c7flock]
  have h2 := h.2.2 hn
  exact ⟨ha, h2.1, h2.2.2 c7flock c7boid c7boid 1 [] [] rfl rfl, by rw [h2.2.1]; rfl⟩

/-! ### Claim C4 -/

/-- The lone boid of the flock whose affinity targets an empty flock. -/
def c4boid : Boid := ⟨0, 0, 0, 0, []⟩

/-- A flock whose affinity targets the flock with id t. -/
def c4hunter : Flock :=
  { id := none, affinity := [("t", 1)], alignment := 0, separation := 0, cohesion := 0,
    min_separation := 10, max_speed := 100, boundary_force := 5, sight_range := 50,
    tracer_len := 10, boids := [c4boid] }

/-- A flock with id t containing zero boids. -/
def c4empty : Flock :=
  { id := some "t", affinity := [], alignment := 0, separation := 0, cohesion := 0,
    min_separation := 10, max_speed := 100, boundary_force := 5, sight_range := 50,
    tracer_len := 10, boids := [] }

/-- A world where an affinity entry targets an empty flock. -/
def c4sim : Simulation := ⟨800, 600, [c4hunter, c4empty]⟩

/-- A stationary boid in a flock with negative max_speed, exercising the
ZeroDivisionError path of limit_speed. -/
def c4negboid : Boid := ⟨0, 0, 0, 0, []⟩

/-- A flock with max_speed -1: the speed clamp fires on a zero-speed boid
and divides by zero. -/
def c4negflock : Flock :=
  { id := none, affinity := [], alignment := 0, separation := 0, cohesion := 0,
    min_separation := 10, max_speed := -1, boundary_force := 5, sight_range := 50,
    tracer_len := 10, boids := [c4negboid] }

/-- The world holding the negative-max_speed flock. -/
def c4negsim : Simulation := ⟨800, 600, [c4negflock]⟩

/-- C4: the claim that every per-agent rule evaluation and get_center
complete without raising is false for the code: the affinity rule calls
Python min over the target flock's agents, which raises ValueError when the
target flock is empty; get_center divides by the agent count, which raises
ZeroDivisionError on an empty flock; and update_boid itself raises
ZeroDivisionError in limit_speed when max_speed is negative and the
post-rules speed is zero (0.0 / 0.0 in the source). -/
theorem C4_counterexample :
    rule_affinity c4sim c4hunter c4boid = Except.error Err.valueError ∧
    get_center c4empty = Except.error Err.zeroDivision ∧
    update_boid c4negsim c4negflock 0 c4negboid = Except.error Err.zeroDivision := by
  refine ⟨rfl, rfl, ?_⟩
  have h3 : rule_separation c4negflock 0
      (rule_cohesion c4negflock 0 (rule_alignment c4negflock 0 c4negboid)) = c4negboid := by
    rw [rule_alignment_zero _ _ _ rfl, rule_cohesion_zero _ _ _ rfl]
    norm_num [rule_separation, others, List.eraseIdx, c4negflock, c4negboid]
  have hlim : limit_speed c4negflock c4negboid = Except.error Err.zeroDivision := by
    norm_num [limit_speed, hypot, c4negflock, c4negboid, Real.sqrt_zero]
  exact update_boid_error_limit c4negsim c4negflock 0 c4negboid c4negboid Err.zeroDivision
    (by rw [h3]; exact rule_affinity_nil _ _ _ rfl) hlim

lemma affinity_ok (s : Simulation) (f : Flock) : ∀ (l : List (String × ℝ)) (b : Boid),
    (∀ e ∈ l, ∃ fl, get_flock s e.1 = Except.ok fl ∧ fl.boids ≠ []) →
    ∃ b2, List.foldlM (affinity_step s f) b l = Except.ok b2 := by
  intro l
  induction l with
  | nil => intro b _; exact ⟨b, rfl⟩
  | cons e l ih =>
    intro b h
    obtain ⟨fl, hfl, hne⟩ := h e (List.mem_cons_self e l)
    obtain ⟨o, rest, hbo⟩ := List.exists_cons_of_ne_nil hne
    have hc : ∃ c, closest_boid b fl.boids = some c := by rw [hbo]; exact ⟨_, rfl⟩
    obtain ⟨c, hc⟩ := hc
    have harm : affinity_step s f b e =
        if in_range f b c then
          Except.ok { b with vx := b.vx + (c.x - b.x) * e.2, vy := b.vy + (c.y - b.y) * e.2 }
        else Except.ok b := by
      show get_flock s e.1 >>= _ = _
      rw [hfl, ok_bind, hc]
      rfl
    have hstep : ∃ b1, affinity_step s f b e = Except.ok b1 := by
      by_cases hr : in_range f b c
      · exact ⟨_, by rw [harm, if_pos hr]⟩
      · exact ⟨b, by rw [harm, if_neg hr]⟩
    obtain ⟨b1, hb1⟩ := hstep
    obtain ⟨b2, hrec⟩ := ih b1 (fun e2 he2 => h e2 (List.mem_cons_of_mem _ he2))
    exact ⟨b2, by rw [foldlM_cons_eq, hb1, ok_bind]; exact hrec⟩

/-- C4 (amended): no visible neighbors and single-agent flocks are never
error conditions, and update_boid completes whenever the flock's max_speed
is nonnegative and every affinity entry resolves to a flock that contains
at least one agent; get_center completes on every nonempty flock.  (The
empty-flock cases and the negative-max_speed zero-speed clamp do raise, see
the counterexample.) -/
theorem C4_amended_no_errors (s : Simulation) (f : Flock) (i : ℕ) (b : Boid)
    (hms : 0 ≤ f.max_speed)
    (haff : ∀ e ∈ f.affinity, ∃ fl, get_flock s e.1 = Except.ok fl ∧ fl.boids ≠ []) :
    (∃ b2, update_boid s f i b = Except.ok b2) ∧
    ∀ g : Flock, g.boids ≠ [] → ∃ c, get_center g = Except.ok c := by
  constructor
  · obtain ⟨b4, hb4⟩ := affinity_ok s f f.affinity
      (rule_separation f i (rule_cohesion f i (rule_alignment f i b))) haff
    have hb4' : rule_affinity s f
        (rule_separation f i (rule_cohesion f i (rule_alignment f i b))) = Except.ok b4 := hb4
    obtain ⟨b5, hb5⟩ := limit_speed_ok f b4 hms
    exact ⟨_, update_boid_eq s f i b b4 b5 hb4' hb5⟩
  · intro g hg
    have hlen : g.boids.length ≠ 0 := fun h0 => hg (List.length_eq_zero.mp h0)
    refine ⟨((g.boids.map Boid.x).sum / (g.boids.length : ℝ),
      (g.boids.map Boid.y).sum / (g.boids.length : ℝ)), ?_⟩
    unfold get_center
    rw [if_neg hlen]

/-- The hunting boid of the C4 witness world. -/
def c4wboid : Boid := ⟨0, 0, 0, 0, []⟩

/-- The prey boid of the C4 witness world. -/
def c4wprey : Boid := ⟨1, 1, 0, 0, []⟩

/-- A nonempty flock with id w, targeted by the witness hunter flock. -/
def c4wtarget : Flock :=
  { id := some "w", affinity := [], alignment := 0, separation := 0, cohesion := 0,
    min_separation := 10, max_speed := 100, boundary_force := 5, sight_range := 50,
    tracer_len := 10, boids := [c4wprey] }

/-- A flock whose affinity targets the nonempty flock with id w. -/
def c4whunter : Flock :=
  { id := none, affinity := [("w", 1)], alignment := 0, separation := 0, cohesion := 0,
    min_separation := 10, max_speed := 100, boundary_force := 5, sight_range := 50,
    tracer_len := 10, boids := [c4wboid] }

/-- The C4 witness world: every affinity entry resolves to a nonempty
flock. -/
def c4wsim : Simulation := ⟨800, 600, [c4whunter, c4wtarget]⟩

/-- Witness for C4 (amended) at a concrete input. -/
theorem C4_witness :
    (∃ b2, update_boid c4wsim c4whunter 0 c4wboid = Except.ok b2) ∧
    ∀ g : Flock, g.boids ≠ [] → ∃ c, get_center g = Except.ok c :=
  C4_amended_no_errors c4wsim c4whunter 0 c4wboid (by norm_num [c4whunter]) (by
    intro e he
    have he2 : e = ("w", 1) := by simpa [c4whunter] using he
    subst he2
    exact ⟨c4wtarget, rfl, by simp [c4wtarget]⟩)

/-! ### Claim C9 -/

/-- C9: the claim that a freshly created agent's position lies in a region
centered at the world origin, with both coordinates possibly negative, is
false for the code: Flock construction draws positions from
uniform(0, width / 2) and uniform(0, height / 2), so for the 100 by 100
world no outcome of the draws gives a negative coordinate. -/
theorem C9_counterexample :
    ¬ ∃ u1 u2 u3 u4 : ℝ, (u1 ∈ Set.Icc (0 : ℝ) 1 ∧ u2 ∈ Set.Icc (0 : ℝ) 1 ∧
      u3 ∈ Set.Icc (0 : ℝ) 1 ∧ u4 ∈ Set.Icc (0 : ℝ) 1) ∧
      ((flock_init_boid 100 100 u1 u2 u3 u4).x < 0 ∨
        (flock_init_boid 100 100 u1 u2 u3 u4).y < 0) := by
  rintro ⟨u1, u2, u3, u4, ⟨h1, h2, _, _⟩, hneg⟩
  have hx : (flock_init_boid 100 100 u1 u2 u3 u4).x = 50 * u1 := by
    norm_num [flock_init_boid, create_random, uniform]
  have hy : (flock_init_boid 100 100 u1 u2 u3 u4).y = 50 * u2 := by
    norm_num [flock_init_boid, create_random, uniform]
  rcases hneg with hlt | hlt
  · rw [hx] at hlt
    nlinarith [h1.1]
  · rw [hy] at hlt
    nlinarith [h2.1]

/-- C9 (amended): for every outcome of the draws, a boid created at Flock
construction has position coordinates in [0, width / 2] times [0, height / 2]
(the quarter-region extending from the origin, never negative for nonnegative
window dimensions), velocity components in [-1, 1], and an empty trail. -/
theorem C9_amended_spawn_region (w h u1 u2 u3 u4 : ℝ) (hw : 0 ≤ w) (hh : 0 ≤ h)
    (h1 : u1 ∈ Set.Icc (0 : ℝ) 1) (h2 : u2 ∈ Set.Icc (0 : ℝ) 1)
    (h3 : u3 ∈ Set.Icc (0 : ℝ) 1) (h4 : u4 ∈ Set.Icc (0 : ℝ) 1) :
    0 ≤ (flock_init_boid w h u1 u2 u3 u4).x ∧ (flock_init_boid w h u1 u2 u3 u4).x ≤ w / 2 ∧
    0 ≤ (flock_init_boid w h u1 u2 u3 u4).y ∧ (flock_init_boid w h u1 u2 u3 u4).y ≤ h / 2 ∧
    -1 ≤ (flock_init_boid w h u1 u2 u3 u4).vx ∧ (flock_init_boid w h u1 u2 u3 u4).vx ≤ 1 ∧
    -1 ≤ (flock_init_boid w h u1 u2 u3 u4).vy ∧ (flock_init_boid w h u1 u2 u3 u4).vy ≤ 1 ∧
    (flock_init_boid w h u1 u2 u3 u4).pos_history = [] := by
  refine ⟨?_, ?_, ?_, ?_, ?_, ?_, ?_, ?_, rfl⟩ <;>
    simp only [flock_init_boid, create_random, uniform] <;>
    nlinarith [h1.1, h1.2, h2.1, h2.2, h3.1, h3.2, h4.1, h4.2, hw, hh]

/-- Witness for C9 (amended) at a concrete input. -/
theorem C9_witness :
    0 ≤ (flock_init_boid 100 60 (1 / 2) (1 / 2) (1 / 2) (1 / 2)).x ∧
    (flock_init_boid 100 60 (1 / 2) (1 / 2) (1 / 2) (1 / 2)).x ≤ 100 / 2 ∧
    -1 ≤ (flock_init_boid 100 60 (1 / 2) (1 / 2) (1 / 2) (1 / 2)).vx := by
  have h := C9_amended_spawn_region 100 60 (1 / 2) (1 / 2) (1 / 2) (1 / 2)
    (by norm_num) (by norm_num)
    (by norm_num [Set.mem_Icc]) (by norm_num [Set.mem_Icc])
    (by norm_num [Set.mem_Icc]) (by norm_num [Set.mem_Icc])
  exact ⟨h.1, h.2.1, h.2.2.2.2.1⟩

/-! ### Claim C6 -/

lemma rule_alignment_hist (f : Flock) (i : ℕ) (b : Boid) :
    (rule_alignment f i b).pos_history = b.pos_history := rfl

lemma rule_cohesion_hist (f : Flock) (i : ℕ) (b : Boid) :
    (rule_cohesion f i b).pos_history = b.pos_history := by
  simp only [rule_cohesion]
  split <;> rfl

lemma rule_separation_hist (f : Flock) (i : ℕ) (b : Boid) :
    (rule_separation f i b).pos_history = b.pos_history := rfl

lemma limit_speed_hist (f : Flock) (b b5 : Boid)
    (hok : limit_speed f b = Except.ok b5) :
    b5.pos_history = b.pos_history := by
  simp only [limit_speed] at hok
  by_cases hs : hypot b.vx b.vy > f.max_speed
  · rw [if_pos hs] at hok
    by_cases hz : hypot b.vx b.vy = 0
    · rw [if_pos hz] at hok
      exact absurd hok (by simp)
    · rw [if_neg hz] at hok
      injection hok with h2
      rw [← h2]
  · rw [if_neg hs] at hok
    injection hok with h2
    rw [← h2]

lemma keep_in_bounds_hist (s : Simulation) (f : Flock) (b : Boid) :
    (keep_in_bounds s f b).pos_history = b.pos_history := by
  simp only [keep_in_bounds]
  split <;> rfl

lemma affinity_step_hist (s : Simulation) (f : Flock) (b : Boid) (e : String × ℝ)
    (b2 : Boid) (h : affinity_step s f b e = Except.ok b2) :
    b2.pos_history = b.pos_history := by
  cases hg : get_flock s e.1 with
  | error er =>
    rw [show affinity_step s f b e = get_flock s e.1 >>= _ from rfl, hg, error_bind] at h
    exact absurd h (by simp)
  | ok fl =>
    rw [show affinity_step s f b e = get_flock s e.1 >>= _ from rfl, hg, ok_bind] at h
    cases hc : closest_boid b fl.boids with
    | none =>
      rw [hc] at h
      exact absurd h (by simp)
    | some c =>
      rw [hc] at h
      by_cases hr : in_range f b c
      · rw [show (match some c with
            | none => (Except.error Err.valueError : Except Err Boid)
            | some closest =>
              if in_range f b closest then
                pure { b with vx := b.vx + (closest.x - b.x) * e.2,
                              vy := b.vy + (closest.y - b.y) * e.2 }
              else pure b) =
            (if in_range f b c then
              Except.ok { b with vx := b.vx + (c.x - b.x) * e.2,
                                 vy := b.vy + (c.y - b.y) * e.2 }
            else Except.ok b) from rfl, if_pos hr] at h
        injection h with h2
        rw [← h2]
      · rw [show (match some c with
            | none => (Except.error Err.valueError : Except Err Boid)
            | some closest =>
              if in_range f b closest then
                pure { b with vx := b.vx + (closest.x - b.x) * e.2,
                              vy := b.vy + (closest.y - b.y) * e.2 }
              else pure b) =
            (if in_range f b c then
              Except.ok { b with vx := b.vx + (c.x - b.x) * e.2,
                                 vy := b.vy + (c.y - b.y) * e.2 }
            else Except.ok b) from rfl, if_neg hr] at h
        injection h with h2
        rw [← h2]

lemma rule_affinity_hist (s : Simulation) (f : Flock) : ∀ (l : List (String × ℝ)) (b b2 : Boid),
    List.foldlM (affinity_step s f) b l = Except.ok b2 → b2.pos_history = b.pos_history := by
  intro l
  induction l with
  | nil =>
    intro b b2 h
    have h2 : (Except.ok b : Except Err Boid) = Except.ok b2 := h
    injection h2 with h3
    rw [← h3]
  | cons e l ih =>
    intro b b2 h
    rw [foldlM_cons_eq] at h
    cases hs : affinity_step s f b e with
    | error er =>
      rw [hs, error_bind] at h
      exact absurd h (by simp)
    | ok b1 =>
      rw [hs, ok_bind] at h
      rw [ih b1 b2 h, affinity_step_hist s f b e b1 hs]

lemma update_position_trail (f : Flock) (b : Boid)
    (h : b.pos_history.length ≤ f.tracer_len) :
    (update_position f b).pos_history.length ≤ f.tracer_len := by
  simp only [update_position]
  split
  · next hgt =>
    simp only [List.length_tail, List.length_append, List.length_cons, List.length_nil]
    omega
  · next hle =>
    simp only [List.length_append, List.length_cons, List.length_nil] at hle ⊢
    omega

lemma update_boid_trail (s : Simulation) (f : Flock) (i : ℕ) (b b2 : Boid)
    (hlen : b.pos_history.length ≤ f.tracer_len)
    (h : update_boid s f i b = Except.ok b2) :
    b2.pos_history.length ≤ f.tracer_len := by
  cases haff : rule_affinity s f (rule_separation f i (rule_cohesion f i (rule_alignment f i b))) with
  | error e =>
    rw [update_boid_error s f i b e haff] at h
    exact absurd h (by simp)
  | ok b4 =>
    cases hlim : limit_speed f b4 with
    | error e =>
      rw [update_boid_error_limit s f i b b4 e haff hlim] at h
      exact absurd h (by simp)
    | ok b5 =>
      rw [update_boid_eq s f i b b4 b5 haff hlim] at h
      injection h with h2
      subst h2
      have h4 : b4.pos_history = b.pos_history := by
        rw [rule_affinity_hist s f f.affinity _ b4 haff, rule_separation_hist,
          rule_cohesion_hist, rule_alignment_hist]
      apply update_position_trail
      rw [keep_in_bounds_hist, limit_speed_hist f b4 b5 hlim, h4]
      exact hlen

lemma update_boid_at_trail (s : Simulation) (fi bi : ℕ) (s' : Simulation)
    (hinv : trail_inv s) (h : update_boid_at s fi bi = Except.ok s') : trail_inv s' := by
  unfold update_boid_at at h
  split at h
  · injection h with h2
    rw [← h2]
    exact hinv
  · next f hf =>
    split at h
    · injection h with h2
      rw [← h2]
      exact hinv
    · next b hb =>
      cases hu : update_boid s f bi b with
      | error e =>
        rw [hu, error_bind] at h
        exact absurd h (by simp)
      | ok b2 =>
        rw [hu, ok_bind] at h
        injection h with h2
        subst h2
        intro fl hfl bb hbb
        rcases List.mem_or_eq_of_mem_set hfl with hmem | heq
        · exact hinv fl hmem bb hbb
        · subst heq
          rcases List.mem_or_eq_of_mem_set hbb with hmem2 | heq2
          · exact hinv f (List.get?_mem hf) bb hmem2
          · subst heq2
            exact update_boid_trail s f bi b bb
              (hinv f (List.get?_mem hf) b (List.get?_mem hb)) hu

lemma foldlM_sim_inv {α : Type} (P : Simulation → Prop)
    (step : Simulation → α → Except Err Simulation)
    (hstep : ∀ t a t2, P t → step t a = Except.ok t2 → P t2) :
    ∀ (l : List α) (t t2 : Simulation), P t → List.foldlM step t l = Except.ok t2 → P t2 := by
  intro l
  induction l with
  | nil =>
    intro t t2 hp h
    have h2 : (Except.ok t : Except Err Simulation) = Except.ok t2 := h
    injection h2 with h3
    rw [← h3]
    exact hp
  | cons a l ih =>
    intro t t2 hp h
    rw [show List.foldlM step t (a :: l) =
      step t a >>= fun t1 => List.foldlM step t1 l from rfl] at h
    cases hs : step t a with
    | error e =>
      rw [hs, error_bind] at h
      exact absurd h (by simp)
    | ok t1 =>
      rw [hs, ok_bind] at h
      exact ih t1 t2 (hstep t a t1 hp hs) h

lemma tick_flock_trail (s : Simulation) (fi : ℕ) (s' : Simulation) (hp : trail_inv s)
    (h : tick_flock s fi = Except.ok s') : trail_inv s' := by
  unfold tick_flock at h
  split at h
  · injection h with h2
    rw [← h2]
    exact hp
  · exact foldlM_sim_inv trail_inv _
      (fun t a t2 hq hs => update_boid_at_trail t fi a t2 hq hs) _ s s' hp h

lemma tick_trail (s s' : Simulation) (hp : trail_inv s) (h : tick s = Except.ok s') :
    trail_inv s' := by
  unfold tick at h
  exact foldlM_sim_inv trail_inv tick_flock
    (fun t a t2 hq hs => tick_flock_trail t a t2 hq hs) _ s s' hp h

lemma tickN_trail : ∀ (n : ℕ) (s s' : Simulation), trail_inv s →
    tickN n s = Except.ok s' → trail_inv s' := by
  intro n
  induction n with
  | zero =>
    intro s s' hp h
    have h2 : (Except.ok s : Except Err Simulation) = Except.ok s' := h
    injection h2 with h3
    rw [← h3]
    exact hp
  | succ n ih =>
    intro s s' hp h
    have h2 : (tick s >>= fun s1 => tickN n s1) = Except.ok s' := h
    cases ht : tick s with
    | error e =>
      rw [ht, error_bind] at h2
      exact absurd h2 (by simp)
    | ok s1 =>
      rw [ht, ok_bind] at h2
      exact ih s1 s' (tick_trail s s1 hp ht) h2

/-- C6: starting from any world whose trails are within their flocks'
tracer_len, after any number of ticks every agent's trail still has length
at most its flock's tracer_len; and whenever appending the current position
would exceed that capacity, the oldest (front) entry is evicted. -/
theorem C6_trail_bound (n : ℕ) (s s' : Simulation) (h1 : trail_inv s)
    (h2 : tickN n s = Except.ok s') :
    trail_inv s' ∧
    ∀ (f : Flock) (b : Boid), f.tracer_len ≤ b.pos_history.length →
      (update_position f b).pos_history = (b.pos_history ++ [(b.x, b.y)]).tail := by
  refine ⟨tickN_trail n s s' h1 h2, ?_⟩
  intro f b hge
  simp only [update_position]
  rw [if_pos]
  simp only [List.length_append, List.length_cons, List.length_nil]
  omega

/-- Witness for C6 at a concrete input: one tick of the two-boid example
world keeps every trail within tracer_len = 10. -/
theorem C6_witness : trail_inv c1sim_end := by
  have hstart : trail_inv c1sim := by
    intro fl hfl b hb
    have h2 : fl = c1flock := by simpa [c1sim] using hfl
    subst h2
    have h3 : b = c1b0 ∨ b = c1b1 := by simpa [c1flock] using hb
    rcases h3 with h3 | h3 <;> subst h3 <;> norm_num [c1b0, c1b1, c1flock]
  have htick : tickN 1 c1sim = Except.ok c1sim_end := by
    have h : tickN 1 c1sim = tick c1sim >>= fun s1 => tickN 0 s1 := rfl
    rw [h, c1_tick, ok_bind]
    rfl
  exact (C6_trail_bound 1 c1sim c1sim_end hstart htick).1

/-! ### Claim C10 -/

/-- C10: updating the boid at position (fi, bi) mutates only that boid: the
world's dimensions are unchanged, the number of flocks is unchanged, every
flock keeps all its parameters and its number of boids, and every other
boid (same flock or any other flock) is unchanged. -/
theorem C10_update_boid_frame (s : Simulation) (fi bi : ℕ) (s' : Simulation)
    (h : update_boid_at s fi bi = Except.ok s') :
    s'.width = s.width ∧ s'.height = s.height ∧
    s'.flocks.length = s.flocks.length ∧
    (∀ fj fl fl', s.flocks.get? fj = some fl → s'.flocks.get? fj = some fl' →
      fl'.id = fl.id ∧ fl'.affinity = fl.affinity ∧ fl'.alignment = fl.alignment ∧
      fl'.separation = fl.separation ∧ fl'.cohesion = fl.cohesion ∧
      fl'.min_separation = fl.min_separation ∧ fl'.max_speed = fl.max_speed ∧
      fl'.boundary_force = fl.boundary_force ∧ fl'.sight_range = fl.sight_range ∧
      fl'.tracer_len = fl.tracer_len ∧ fl'.boids.length = fl.boids.length) ∧
    ∀ fj bj, ¬(fj = fi ∧ bj = bi) → boid_at s' fj bj = boid_at s fj bj := by
  unfold update_boid_at at h
  split at h
  · injection h with h2
    subst h2
    refine ⟨rfl, rfl, rfl, ?_, fun fj bj _ => rfl⟩
    intro fj fl fl' ha hb2
    rw [ha] at hb2
    injection hb2 with hb3
    subst hb3
    exact ⟨rfl, rfl, rfl, rfl, rfl, rfl, rfl, rfl, rfl, rfl, rfl⟩
  · next f hf =>
    split at h
    · injection h with h2
      subst h2
      refine ⟨rfl, rfl, rfl, ?_, fun fj bj _ => rfl⟩
      intro fj fl fl' ha hb2
      rw [ha] at hb2
      injection hb2 with hb3
      subst hb3
      exact ⟨rfl, rfl, rfl, rfl, rfl, rfl, rfl, rfl, rfl, rfl, rfl⟩
    · next b hb =>
      cases hu : update_boid s f bi b with
      | error e =>
        rw [hu, error_bind] at h
        exact absurd h (by simp)
      | ok b2 =>
        rw [hu, ok_bind] at h
        injection h with h2
        subst h2
        have hlt : fi < s.flocks.length := by
          by_contra hge
          rw [List.get?_eq_none.mpr (le_of_not_lt hge)] at hf
          exact absurd hf (by simp)
        refine ⟨rfl, rfl, by simp [List.length_set], ?_, ?_⟩
        · intro fj fl fl' ha hb2
          dsimp only at hb2
          by_cases hj : fj = fi
          · subst hj
            rw [hf] at ha
            injection ha with ha2
            rw [List.get?_set_eq_of_lt _ hlt] at hb2
            injection hb2 with hb3
            subst hb3
            rw [← ha2]
            exact ⟨rfl, rfl, rfl, rfl, rfl, rfl, rfl, rfl, rfl, rfl, by simp [List.length_set]⟩
          · rw [List.get?_set_ne _ _ (fun h3 => hj h3.symm), ha] at hb2
            injection hb2 with hb3
            subst hb3
            exact ⟨rfl, rfl, rfl, rfl, rfl, rfl, rfl, rfl, rfl, rfl, rfl⟩
        · intro fj bj hne
          unfold boid_at
          dsimp only
          by_cases hj : fj = fi
          · subst hj
            have hbj : ¬(bi = bj) := fun hEq => hne ⟨rfl, hEq.symm⟩
            rw [List.get?_set_eq_of_lt _ hlt, hf]
            show (f.boids.set bi b2).get? bj = f.boids.get? bj
            exact List.get?_set_ne _ _ hbj
          · rw [List.get?_set_ne _ _ (fun h3 => hj h3.symm)]

/-- Witness for C10 at a concrete input: updating the first boid of the
two-boid example world leaves the second boid and the dimensions intact. -/
theorem C10_witness :
    boid_at c1sim_mid 0 1 = boid_at c1sim 0 1 ∧ c1sim_mid.width = c1sim.width := by
  have h := C10_update_boid_frame c1sim 0 0 c1sim_mid c1_step1
  exact ⟨h.2.2.2.2 0 1 (by norm_num), h.1⟩

end

end FlockSim
